import Mathlib

/-!
Shallow embedding of the core of x-backup (src/index.js): the entity-based
tweet-text rewriter (formatTweetText / escapeHtml), the item classifier
(getTweetType), the archive index builder (generateHtml without the inert
page template), and the client-side filter/sort/search runtime
(stem / tokenize / filterAndSort).

Modelling conventions:
- Body text is `List Char`; JavaScript string slicing is modelled by
  jsSliceIdx / applyRepl below, following the ECMAScript ToIntegerOrInfinity
  clamping rules (NaN maps to 0, negative indices count from the end,
  indices clamp to the string length).
- The result of JavaScript parseInt on entity index strings is modelled as
  `Option Int`, with `none` standing for NaN (non-numeric input).
- Optional record fields (full_text, id_str, reply targets, counts) are
  `Option` values; the JS `x || fallback` idiom on strings is jsStrOr
  (the empty string is falsy) and on parsed numbers is jsIntOr.
- JavaScript Array.prototype.sort is required by ECMAScript to be stable;
  it is modelled by the stable insertion sort stableSort below, whose
  output is characterised by sortedness plus stability.
- Date parsing (new Date(s).getTime(), environment-defined) is passed as an
  explicit parameter dparse : String -> Option Int, none standing for NaN.
-/

/-- The apostrophe character, written via its code point. -/
def aposChar : Char := Char.ofNat 39

/-- The double-quote character, written via its code point. -/
def quoteChar : Char := Char.ofNat 34

/-- Replace every occurrence of character c by the string r; this is the
JavaScript `text.replace(/c/g, r)` for a single literal character. -/
def replaceChar (c : Char) (r : List Char) : List Char → List Char
  | [] => []
  | x :: xs => (if x = c then r else [x]) ++ replaceChar c r xs

/-- src/index.js escapeHtml: five sequential global replacements, ampersand
first, in this order: amp, lt, gt, quot, apostrophe. -/
def escapeHtml (s : List Char) : List Char :=
  replaceChar aposChar "&#039;".toList
    (replaceChar quoteChar "&quot;".toList
      (replaceChar '>' "&gt;".toList
        (replaceChar '<' "&lt;".toList
          (replaceChar '&' "&amp;".toList s))))

/-- ECMAScript index clamping used by String.prototype.slice: NaN (modelled
as none) maps to 0, a negative index counts from the end clamped at 0, and
any index clamps to the length. -/
def jsSliceIdx (len : Nat) (v : Option Int) : Nat :=
  match v with
  | none => 0
  | some i => if i < 0 then ((len : Int) + i).toNat else min i.toNat len

/-- One pending splice of formatTweetText: a half-open character range and
the pre-built HTML fragment that replaces it. The indices are the results
of parseInt on the entity index strings (none = NaN). -/
structure Repl where
  start : Option Int
  stop : Option Int
  replacement : List Char
deriving DecidableEq, Repr

/-- The splice step of formatTweetText:
`text = text.slice(0, start) + replacement + text.slice(end)`. -/
def applyRepl (text : List Char) (r : Repl) : List Char :=
  text.take (jsSliceIdx text.length r.start) ++ r.replacement ++
    text.drop (jsSliceIdx text.length r.stop)

/-- The comparator `(a, b) => b.start - a.start` used on the merged
replacement list, rendered as a boolean "a may stay before b": true when
the comparator result is <= 0, which for NaN operands (where the comparator
yields NaN, treated by the sort as 0) is also true. -/
def replLe (a b : Repl) : Bool :=
  match a.start, b.start with
  | some x, some y => decide (y ≤ x)
  | _, _ => true

/-- Stable insertion: x is placed before the first element y with
le x y = true, so it ends up after every earlier-listed element it ties
with. Together with stableSort this realises the unique stable sort that
ECMAScript requires of Array.prototype.sort. -/
def insertLe (le : α → α → Bool) (x : α) : List α → List α
  | [] => [x]
  | y :: ys => if le x y then x :: y :: ys else y :: insertLe le x ys

/-- Stable sort by the boolean relation le (see insertLe). -/
def stableSort (le : α → α → Bool) : List α → List α
  | [] => []
  | x :: xs => insertLe le x (stableSort le xs)

/-- JS `a || b` for an optional string: the empty string is falsy. -/
def jsStrOr (a : Option String) (b : String) : String :=
  match a with
  | some s => if s = "" then b else s
  | none => b

/-- JS `parseInt(x) || d`: NaN (none) and 0 both fall back to d. -/
def jsIntOr (a : Option Int) (d : Int) : Int :=
  match a with
  | some v => if v = 0 then d else v
  | none => d

/-- A user-mention entity: parseInt-ed indices plus the screen name. -/
structure Mention where
  indices : Option Int × Option Int
  screen_name : String
deriving DecidableEq, Repr

/-- A URL entity: parseInt-ed indices plus the three optional URL fields. -/
structure UrlEntity where
  indices : Option Int × Option Int
  url : Option String
  expanded_url : Option String
  display_url : Option String
deriving DecidableEq, Repr

/-- A hashtag entity: parseInt-ed indices plus the tag text. -/
structure Hashtag where
  indices : Option Int × Option Int
  text : String
deriving DecidableEq, Repr

/-- A media entity: parseInt-ed indices (its url field only feeds the unused
mediaUrls set in the source, so it is not modelled). -/
structure MediaEntity where
  indices : Option Int × Option Int
deriving DecidableEq, Repr

/-- The fields of one exported tweet object that the core reads.
retweeted_status is an object in the export; only its presence matters. -/
structure Tweet where
  full_text : Option String
  user_mentions : List Mention
  urls : List UrlEntity
  hashtags : List Hashtag
  media : List MediaEntity
  retweeted_status : Bool
  in_reply_to_status_id_str : Option String
  in_reply_to_user_id_str : Option String
  id_str : Option String
  id : Option String
  created_at : String
  favorite_count : Option Int
  retweet_count : Option Int
deriving DecidableEq, Repr

/-- `tweet.full_text || ""`. -/
def fullTextOf (t : Tweet) : String := jsStrOr t.full_text ""

/-- Replacement built for one user mention (screen name not escaped). -/
def mentionRepl (m : Mention) : Repl :=
  { start := m.indices.1, stop := m.indices.2,
    replacement :=
      ("<a href=\"https://twitter.com/" ++ m.screen_name ++
        "\" target=\"_blank\" rel=\"noopener\" class=\"mention\">@" ++
        m.screen_name ++ "</a>").toList }

/-- Replacement built for one URL entity; expanded and display URLs pass
through escapeHtml. -/
def urlRepl (u : UrlEntity) : Repl :=
  let expandedUrl := jsStrOr u.expanded_url (jsStrOr u.url "")
  let displayUrl := jsStrOr u.display_url expandedUrl
  { start := u.indices.1, stop := u.indices.2,
    replacement :=
      "<a href=\"".toList ++ escapeHtml expandedUrl.toList ++
        "\" target=\"_blank\" rel=\"noopener\" class=\"link\">".toList ++
        escapeHtml displayUrl.toList ++ "</a>".toList }

/-- Replacement built for one hashtag (tag text not escaped). -/
def hashtagRepl (h : Hashtag) : Repl :=
  { start := h.indices.1, stop := h.indices.2,
    replacement :=
      ("<a href=\"https://twitter.com/hashtag/" ++ h.text ++
        "\" target=\"_blank\" rel=\"noopener\" class=\"hashtag\">#" ++
        h.text ++ "</a>").toList }

/-- Replacement built for one media entity: the empty fragment. -/
def mediaRepl (m : MediaEntity) : Repl :=
  { start := m.indices.1, stop := m.indices.2, replacement := [] }

/-- The merged replacement list of formatTweetText, in the order the source
pushes them: mentions, then URLs, then hashtags, then media. -/
def mergedRepls (t : Tweet) : List Repl :=
  t.user_mentions.map mentionRepl ++ t.urls.map urlRepl ++
    t.hashtags.map hashtagRepl ++ t.media.map mediaRepl

/-- src/index.js formatTweetText: merge the entity replacements, stable-sort
them by start index descending, splice each in turn from the resulting
order, then convert newlines to br elements. -/
def formatTweetText (t : Tweet) : List Char :=
  let text := (fullTextOf t).toList
  let sorted := stableSort replLe (mergedRepls t)
  let spliced := sorted.foldl applyRepl text
  replaceChar '\n' "<br>".toList spliced

example : formatTweetText
    { full_text := some "a<b", user_mentions := [], urls := [], hashtags := [],
      media := [], retweeted_status := false, in_reply_to_status_id_str := none,
      in_reply_to_user_id_str := none, id_str := none, id := none,
      created_at := "", favorite_count := none, retweet_count := none } =
    "a<b".toList := by decide

/-- Truthiness of an optional string field in JS: present and non-empty. -/
def jsTruthyStr (o : Option String) : Bool :=
  match o with
  | some s => !(s = "")
  | none => false

/-- The three type tags produced by the classifier. -/
inductive TweetType where
  | post
  | reply
  | retweet
deriving DecidableEq, Repr

/-- src/index.js getTweetType: retweet when the body text starts with the
literal "RT @" or a retweeted_status object is present; else reply when
either reply-target field is truthy; else post. -/
def getTweetType (t : Tweet) : TweetType :=
  if "RT @".toList.isPrefixOf (fullTextOf t).toList || t.retweeted_status then
    .retweet
  else if jsTruthyStr t.in_reply_to_status_id_str ||
      jsTruthyStr t.in_reply_to_user_id_str then
    .reply
  else
    .post

/-- Scan for the first closing angle bracket; on success return the suffix
after it. Used to model one match of the tag regex in stripTags. -/
def afterGt : List Char → Option (List Char)
  | [] => none
  | c :: rest => if c = '>' then some rest else afterGt rest

/-- Worker for stripTags, structurally recursive on a fuel argument so the
kernel can evaluate it; the fuel only needs to be at least the length of
the remaining text, and every recursive call shortens that text. -/
def stripTagsGo : Nat → List Char → List Char
  | _, [] => []
  | 0, l => l
  | fuel + 1, c :: rest =>
    if c = '<' then
      match rest with
      | [] => [c]
      | d :: rest2 =>
        if d = '>' then c :: stripTagsGo fuel (d :: rest2)
        else
          match afterGt rest2 with
          | some rest3 => stripTagsGo fuel rest3
          | none => c :: stripTagsGo fuel (d :: rest2)
    else c :: stripTagsGo fuel rest

/-- The global replacement `fullText.replace(/<[^>]+>/g, "")` from the
search-index construction: remove every leftmost, non-overlapping match of
an opening angle bracket, one or more non-closing characters, and a
closing angle bracket. -/
def stripTags (s : List Char) : List Char := stripTagsGo s.length s

/-- A record paired with its successfully parsed timestamp, the element
shape of the tweetsWithDates array in generateHtml. -/
structure Dated where
  date : Int
  tweet : Tweet
deriving DecidableEq, Repr

/-- The sort comparator `(a, b) => b.date.getTime() - a.date.getTime()` as
a boolean "a may stay before b" (comparator result at most zero). -/
def datedLe (a b : Dated) : Bool := decide (b.date ≤ a.date)

/-- The filtering step of generateHtml: keep each tweet whose created_at
parses to a valid instant (dparse models new Date plus the isNaN check),
pairing it with that instant, in input order. -/
def tweetsWithDates (dparse : String → Option Int) (tweets : List Tweet) :
    List Dated :=
  tweets.filterMap fun t => (dparse t.created_at).map fun d =>
    { date := d, tweet := t }

/-- The stably date-descending-sorted render list of generateHtml. -/
def renderList (dparse : String → Option Int) (tweets : List Tweet) :
    List Dated :=
  stableSort datedLe (tweetsWithDates dparse tweets)

/-- `tweet.id_str || tweet.id || ""`. -/
def idOf (t : Tweet) : String := jsStrOr t.id_str (jsStrOr t.id "")

/-- `parseInt(tweet.favorite_count) || 0`. -/
def likesOf (t : Tweet) : Int := jsIntOr t.favorite_count 0

/-- One entry of the embedded search index. -/
structure IndexEntry where
  id : String
  text : List Char
  timestamp : Int
  type : TweetType
deriving DecidableEq, Repr

/-- The search-index entry built for one retained item: the RAW body text
with tag-like sequences stripped and then lowercased, together with id,
timestamp and type tag. -/
def mkIndexEntry (d : Dated) : IndexEntry :=
  { id := idOf d.tweet,
    text := (stripTags (fullTextOf d.tweet).toList).map Char.toLower,
    timestamp := d.date,
    type := getTweetType d.tweet }

/-- The per-item data generateHtml embeds in the rendered article markup:
the data attributes used by the runtime plus the rewritten body HTML. -/
structure RenderedTweet where
  id : String
  timestamp : Int
  type : TweetType
  likes : Int
  retweets : Int
  html : List Char
deriving DecidableEq, Repr

/-- Build the rendered item for one retained record. -/
def mkRendered (d : Dated) : RenderedTweet :=
  { id := idOf d.tweet,
    timestamp := d.date,
    type := getTweetType d.tweet,
    likes := likesOf d.tweet,
    retweets := jsIntOr d.tweet.retweet_count 0,
    html := formatTweetText d.tweet }

/-- The per-type counters accumulated by generateHtml. -/
structure TypeCounts where
  post : Nat
  reply : Nat
  retweet : Nat
deriving DecidableEq, Repr

/-- `typeCounts[tweetType]++`. -/
def bumpCount (c : TypeCounts) : TweetType → TypeCounts
  | .post => { c with post := c.post + 1 }
  | .reply => { c with reply := c.reply + 1 }
  | .retweet => { c with retweet := c.retweet + 1 }

/-- The per-type counts over the render list, starting from all zeroes. -/
def typeCountsOf (l : List Dated) : TypeCounts :=
  l.foldl (fun c d => bumpCount c (getTweetType d.tweet)) ⟨0, 0, 0⟩

/-- `if (likes > maxLikes) maxLikes = likes`, starting from 0. -/
def maxLikesOf (l : List Dated) : Int :=
  l.foldl (fun m d => max m (likesOf d.tweet)) 0

/-- The search index generateHtml embeds: one entry per retained item, in
render-list order. -/
def searchIndexOf (dparse : String → Option Int) (tweets : List Tweet) :
    List IndexEntry :=
  (renderList dparse tweets).map mkIndexEntry

/-- The data of the full archive page, abstracting the inert HTML/CSS
template around it: rendered items, embedded search index, per-type
counts, the maximum like count sizing the slider, and the min and max
timestamps that become the default date-range bounds. -/
structure PageData where
  items : List RenderedTweet
  searchIndex : List IndexEntry
  typeCounts : TypeCounts
  maxLikes : Int
  minDate : Int
  maxDate : Int
deriving DecidableEq, Repr

/-- The literal early-return document of generateHtml for an empty
post-filter collection. -/
def noTweetsHtml : List Char :=
  "<html><body><p>No tweets found.</p></body></html>".toList

/-- The two possible outputs of generateHtml. -/
inductive GenOutput where
  | noTweets (html : List Char)
  | page (data : PageData)
deriving DecidableEq, Repr

/-- src/index.js generateHtml, modelled at the level of the data it embeds
in the document: filter out unparseable timestamps, stable-sort newest
first, early-return the minimal empty-state page when nothing remains,
otherwise assemble rendered items, search index and aggregates. minDate is
the date of the last (oldest) and maxDate of the first (newest) element of
the sorted list. -/
def generateHtml (dparse : String → Option Int) (tweets : List Tweet) :
    GenOutput :=
  match renderList dparse tweets with
  | [] => .noTweets noTweetsHtml
  | first :: rest =>
      .page
        { items := (first :: rest).map mkRendered,
          searchIndex := (first :: rest).map mkIndexEntry,
          typeCounts := typeCountsOf (first :: rest),
          maxLikes := maxLikesOf (first :: rest),
          minDate := (List.getLastD rest first).date,
          maxDate := first.date }

/-- JS `big.includes(small)` on strings: small occurs contiguously in big. -/
def hasSub (small : List Char) : List Char → Bool
  | [] => small.isEmpty
  | c :: rest => small.isPrefixOf (c :: rest) || hasSub small rest

/-- The whitespace class of the JS regexes `\s` and of String.trim, for the
characters that can occur here (space, tab, newline, carriage return, form
feed, vertical tab). -/
def isWsChar (c : Char) : Bool :=
  c = ' ' || c = '\t' || c = '\n' || c = '\r' || c = '\x0c' || c = '\x0b'

/-- Worker for splitWs: acc holds the current piece, reversed. Structural
recursion on a fuel argument (at least the length of the remaining text)
so the kernel can evaluate it; every recursive call shortens the text. -/
def splitWsGo : Nat → List Char → List Char → List (List Char)
  | _, [], acc => [acc.reverse]
  | 0, s, acc => [acc.reverse ++ s]
  | fuel + 1, c :: rest, acc =>
    if isWsChar c then
      acc.reverse :: splitWsGo fuel (rest.dropWhile isWsChar) []
    else
      splitWsGo fuel rest (c :: acc)

/-- JS `text.split(/\s+/)`: split on maximal whitespace runs, keeping the
empty pieces that JS produces at a whitespace boundary at either end. -/
def splitWs (s : List Char) : List (List Char) := splitWsGo s.length s []

/-- JS String.trim: drop whitespace from both ends. -/
def jsTrim (s : List Char) : List Char :=
  ((s.dropWhile isWsChar).reverse.dropWhile isWsChar).reverse

/-- Keep lowercase letters and digits, as the stemmer strips all other
characters. -/
def isAlnumLower (c : Char) : Bool :=
  ('a' ≤ c && c ≤ 'z') || ('0' ≤ c && c ≤ '9')

/-- JS `word.slice(0, -n)` for n at most the length. -/
def dropLastN (w : List Char) (n : Nat) : List Char := w.take (w.length - n)

/-- The page-script stem function: lowercase, strip characters outside
[a-z0-9], then the first matching suffix rule wins: ing, ed, es,
s-but-not-ss, ly. -/
def stem (word : List Char) : List Char :=
  let w := (word.map Char.toLower).filter isAlnumLower
  if "ing".toList.isSuffixOf w then dropLastN w 3
  else if "ed".toList.isSuffixOf w then dropLastN w 2
  else if "es".toList.isSuffixOf w then dropLastN w 2
  else if "s".toList.isSuffixOf w && !("ss".toList.isSuffixOf w) then
    dropLastN w 1
  else if "ly".toList.isSuffixOf w then dropLastN w 2
  else w

/-- The page-script tokenize function: lowercase, split on whitespace runs,
stem each piece, drop empty results. -/
def tokenize (text : List Char) : List (List Char) :=
  ((splitWs (text.map Char.toLower)).map stem).filter fun w => w.length > 0

example : stem "running".toList = "runn".toList := by decide
example : stem "walked".toList = "walk".toList := by decide
example : stem "hashes".toList = "hash".toList := by decide
example : stem "cats".toList = "cat".toList := by decide
example : stem "quickly".toList = "quick".toList := by decide
example : stem "class".toList = "class".toList := by decide

/-- The per-item data attributes the runtime reads back from a rendered
article element (parseInt of dataset.timestamp and dataset.likes already
applied, as generation wrote genuine numbers there). -/
structure TweetEl where
  timestamp : Int
  id : String
  type : TweetType
  likes : Int
deriving DecidableEq, Repr

/-- The runtime UI state read at the top of filterAndSort. fromDay and
toDay are the epoch milliseconds of the chosen days at midnight UTC (none
for an empty field); the code turns the to-value into the last second of
that day by appending T23:59:59 before parsing. -/
structure FilterState where
  query : List Char
  fromDay : Option Int
  toDay : Option Int
  minLikes : Int
  activeType : TweetType
deriving DecidableEq, Repr

/-- `searchIndex.find(s => s.id === tweet.dataset.id)`. -/
def findEntry (searchIndex : List IndexEntry) (id : String) :
    Option IndexEntry :=
  searchIndex.find? fun s => s.id == id

/-- The visibility test of filterAndSort for one rendered item: type tag
equals the active tab; timestamp at least fromDate (0 when the from field
is empty) and at most the end-of-day toDate (no upper bound when the to
field is empty); likes at least the slider minimum; and, when the query
has tokens and the item has an index entry, every query token must be in
mutual-containment with some token of the indexed text. -/
def visibleTweet (st : FilterState) (searchIndex : List IndexEntry)
    (el : TweetEl) : Bool :=
  let queryTokens := tokenize (jsTrim st.query)
  let fromDate : Int := st.fromDay.getD 0
  let typeMatch := el.type == st.activeType
  let dateMatch := decide (fromDate ≤ el.timestamp) &&
    (match st.toDay with
     | none => true
     | some d => decide (el.timestamp ≤ d + 86399000))
  let likesMatch := decide (st.minLikes ≤ el.likes)
  let indexEntry := findEntry searchIndex el.id
  let searchMatch :=
    if queryTokens.length > 0 && indexEntry.isSome then
      match indexEntry with
      | some e =>
          queryTokens.all fun qt =>
            (tokenize e.text).any fun tt => hasSub qt tt || hasSub tt qt
      | none => true
    else true
  typeMatch && dateMatch && likesMatch && searchMatch

theorem insertLe_perm (le : α → α → Bool) (x : α) (l : List α) :
    List.Perm (insertLe le x l) (x :: l) := by
  induction l with
  | nil => exact List.Perm.refl _
  | cons y ys ih =>
    simp only [insertLe]
    by_cases h : le x y = true
    · simp [h]
    · simp only [h, if_false]
      exact (ih.cons y).trans (List.Perm.swap x y ys)

theorem stableSort_perm (le : α → α → Bool) (l : List α) :
    List.Perm (stableSort le l) l := by
  induction l with
  | nil => exact List.Perm.refl _
  | cons x xs ih =>
    exact (insertLe_perm le x (stableSort le xs)).trans (ih.cons x)

theorem insertLe_pairwise (le : α → α → Bool) (P : α → Prop)
    (htrans : ∀ a b c, P b → le a b = true → le b c = true → le a c = true)
    (htotal : ∀ a b, le a b = true ∨ le b a = true)
    (x : α) (l : List α) (hPl : ∀ a ∈ l, P a)
    (hl : l.Pairwise fun a b => le a b = true) :
    (insertLe le x l).Pairwise fun a b => le a b = true := by
  induction l with
  | nil => simp [insertLe]
  | cons y ys ih =>
    rcases List.pairwise_cons.mp hl with ⟨hy, hys⟩
    simp only [insertLe]
    by_cases h : le x y = true
    · simp only [h, if_true]
      refine List.pairwise_cons.mpr ⟨?_, hl⟩
      intro z hz
      rcases List.mem_cons.mp hz with rfl | hz'
      · exact h
      · exact htrans x y z (hPl y (by simp)) h (hy z hz')
    · simp only [h, if_false]
      refine List.pairwise_cons.mpr
        ⟨?_, ih (fun a ha => hPl a (by simp [ha])) hys⟩
      intro z hz
      have hz2 : z ∈ x :: ys := (insertLe_perm le x ys).mem_iff.mp hz
      rcases List.mem_cons.mp hz2 with hzx | hz'
      · subst hzx
        rcases htotal z y with hzy | hyz
        · exact absurd hzy h
        · exact hyz
      · exact hy z hz'

theorem stableSort_pairwise (le : α → α → Bool) (P : α → Prop)
    (htrans : ∀ a b c, P b → le a b = true → le b c = true → le a c = true)
    (htotal : ∀ a b, le a b = true ∨ le b a = true)
    (l : List α) (hPl : ∀ a ∈ l, P a) :
    (stableSort le l).Pairwise fun a b => le a b = true := by
  induction l with
  | nil => simp [stableSort]
  | cons x xs ih =>
    simp only [stableSort]
    have hPs : ∀ a ∈ stableSort le xs, P a := fun a ha =>
      hPl a (by simp [(stableSort_perm le xs).mem_iff.mp ha])
    exact insertLe_pairwise le P htrans htotal x (stableSort le xs) hPs
      (ih fun a ha => hPl a (by simp [ha]))

theorem insertLe_filter_pos (le : α → α → Bool) (p : α → Bool) (x : α)
    (l : List α) (hkey : ∀ y, p y = true → le x y = true) (hx : p x = true) :
    (insertLe le x l).filter p = x :: l.filter p := by
  induction l with
  | nil => simp [insertLe, hx]
  | cons y ys ih =>
    simp only [insertLe]
    by_cases h : le x y = true
    · simp [h, List.filter_cons, hx]
    · have hpy : p y = false := by
        cases hpy : p y
        · rfl
        · exact absurd (hkey y hpy) h
      simp [h, List.filter_cons, hpy, ih]

theorem insertLe_filter_neg (le : α → α → Bool) (p : α → Bool) (x : α)
    (l : List α) (hx : p x = false) :
    (insertLe le x l).filter p = l.filter p := by
  induction l with
  | nil => simp [insertLe, hx]
  | cons y ys ih =>
    simp only [insertLe]
    by_cases h : le x y = true
    · simp [h, List.filter_cons, hx]
    · rw [if_neg h, List.filter_cons, List.filter_cons, ih]

theorem stableSort_filter (le : α → α → Bool) (p : α → Bool)
    (hkey : ∀ a b, p a = true → p b = true → le a b = true) (l : List α) :
    (stableSort le l).filter p = l.filter p := by
  induction l with
  | nil => rfl
  | cons x xs ih =>
    simp only [stableSort]
    cases hx : p x
    · rw [insertLe_filter_neg le p x _ hx, ih, List.filter_cons, hx]
      simp
    · rw [insertLe_filter_pos le p x _ (fun y hy => hkey x y hx hy) hx, ih,
        List.filter_cons, hx]
      simp

/-- The start index of a replacement as an integer key (0 for NaN). -/
def startKey (r : Repl) : Int := r.start.getD 0

/-- The stop index of a replacement as an integer key (0 for NaN). -/
def stopKey (r : Repl) : Int := r.stop.getD 0

theorem replLe_trans (a b c : Repl) (hb : b.start.isSome = true)
    (h1 : replLe a b = true) (h2 : replLe b c = true) : replLe a c = true := by
  rcases hbs : b.start with _ | y
  · rw [hbs] at hb
    simp at hb
  · rcases has : a.start with _ | x
    · simp [replLe, has]
    · rcases hcs : c.start with _ | z
      · simp [replLe, has, hcs]
      · simp only [replLe, has, hbs, decide_eq_true_eq] at h1
        simp only [replLe, hbs, hcs, decide_eq_true_eq] at h2
        simp only [replLe, has, hcs, decide_eq_true_eq]
        omega

theorem replLe_total (a b : Repl) : replLe a b = true ∨ replLe b a = true := by
  rcases has : a.start with _ | x <;> rcases hbs : b.start with _ | y <;>
    simp [replLe, has, hbs] <;> omega

theorem stableSort_eq_of_perm_repl (l1 l2 : List Repl)
    (hperm : List.Perm l1 l2)
    (hsome : ∀ r ∈ l1, r.start.isSome = true)
    (hne : l1.Pairwise fun a b => startKey a ≠ startKey b) :
    stableSort replLe l1 = stableSort replLe l2 := by
  have hsome2 : ∀ r ∈ l2, r.start.isSome = true := fun r hr =>
    hsome r (hperm.mem_iff.mpr hr)
  have hne2 : l2.Pairwise fun a b => startKey a ≠ startKey b :=
    (hperm.pairwise_iff fun hab => Ne.symm hab).mp hne
  have hp1 : (stableSort replLe l1).Pairwise fun a b => replLe a b = true :=
    stableSort_pairwise replLe (fun r => r.start.isSome = true)
      replLe_trans replLe_total l1 hsome
  have hp2 : (stableSort replLe l2).Pairwise fun a b => replLe a b = true :=
    stableSort_pairwise replLe (fun r => r.start.isSome = true)
      replLe_trans replLe_total l2 hsome2
  have hne1s : (stableSort replLe l1).Pairwise fun a b =>
      startKey a ≠ startKey b :=
    ((stableSort_perm replLe l1).pairwise_iff fun hab => Ne.symm hab).mpr hne
  have hne2s : (stableSort replLe l2).Pairwise fun a b =>
      startKey a ≠ startKey b :=
    ((stableSort_perm replLe l2).pairwise_iff fun hab => Ne.symm hab).mpr hne2
  have hsome1s : ∀ r ∈ stableSort replLe l1, r.start.isSome = true :=
    fun r hr => hsome r ((stableSort_perm replLe l1).mem_iff.mp hr)
  have hsome2s : ∀ r ∈ stableSort replLe l2, r.start.isSome = true :=
    fun r hr => hsome2 r ((stableSort_perm replLe l2).mem_iff.mp hr)
  have hstrict1 : (stableSort replLe l1).Pairwise fun a b =>
      startKey b < startKey a := by
    refine (hp1.and hne1s).imp_of_mem ?_
    intro a b ha hb hab
    rcases hab with ⟨hle, hnab⟩
    rcases Option.isSome_iff_exists.mp (hsome1s a ha) with ⟨x, hx⟩
    rcases Option.isSome_iff_exists.mp (hsome1s b hb) with ⟨y, hy⟩
    simp only [replLe, hx, hy, decide_eq_true_eq] at hle
    simp only [startKey, hx, hy, Option.getD_some] at hnab ⊢
    omega
  have hstrict2 : (stableSort replLe l2).Pairwise fun a b =>
      startKey b < startKey a := by
    refine (hp2.and hne2s).imp_of_mem ?_
    intro a b ha hb hab
    rcases hab with ⟨hle, hnab⟩
    rcases Option.isSome_iff_exists.mp (hsome2s a ha) with ⟨x, hx⟩
    rcases Option.isSome_iff_exists.mp (hsome2s b hb) with ⟨y, hy⟩
    simp only [replLe, hx, hy, decide_eq_true_eq] at hle
    simp only [startKey, hx, hy, Option.getD_some] at hnab ⊢
    omega
  haveI : IsAntisymm Repl (fun a b => startKey b < startKey a) :=
    ⟨fun a b h1 h2 => absurd (h1.trans h2) (lt_irrefl _)⟩
  exact List.eq_of_perm_of_sorted
    ((stableSort_perm replLe l1).trans
      (hperm.trans (stableSort_perm replLe l2).symm))
    hstrict1 hstrict2

/-- A tweet carrying only body text, hashtag spans and media spans; every
other field is absent or neutral. -/
def plainTweet (ft : String) (hs : List Hashtag) (ms : List MediaEntity) :
    Tweet :=
  { full_text := some ft, user_mentions := [], urls := [], hashtags := hs,
    media := ms, retweeted_status := false, in_reply_to_status_id_str := none,
    in_reply_to_user_id_str := none, id_str := none, id := none,
    created_at := "", favorite_count := none, retweet_count := none }

theorem mem_replaceChar {c : Char} (a : Char) (r s : List Char)
    (h : c ∈ replaceChar a r s) : c ∈ r ∨ (c ∈ s ∧ c ≠ a) := by
  induction s with
  | nil => simp [replaceChar] at h
  | cons x xs ih =>
    simp only [replaceChar, List.mem_append] at h
    rcases h with h1 | h2
    · by_cases hx : x = a
      · rw [if_pos hx] at h1
        exact Or.inl h1
      · rw [if_neg hx] at h1
        simp at h1
        subst h1
        exact Or.inr ⟨by simp, hx⟩
    · rcases ih h2 with h3 | ⟨h4, h5⟩
      · exact Or.inl h3
      · exact Or.inr ⟨by simp [h4], h5⟩

theorem escapeHtml_mem : ∀ s : List Char, ∀ c ∈ escapeHtml s,
    c ≠ '<' ∧ c ≠ '>' ∧ c ≠ quoteChar ∧ c ≠ aposChar := by
  intro s c h
  unfold escapeHtml at h
  rcases mem_replaceChar aposChar _ _ h with h1 | ⟨h1, hne5⟩
  · rw [show "&#039;".toList = ['&', '#', '0', '3', '9', ';'] from rfl] at h1
    simp at h1
    rcases h1 with rfl | rfl | rfl | rfl | rfl | rfl <;> decide
  rcases mem_replaceChar quoteChar _ _ h1 with h2 | ⟨h2, hne4⟩
  · rw [show "&quot;".toList = ['&', 'q', 'u', 'o', 't', ';'] from rfl] at h2
    simp at h2
    rcases h2 with rfl | rfl | rfl | rfl | rfl | rfl <;> decide
  rcases mem_replaceChar '>' _ _ h2 with h3 | ⟨h3, hne3⟩
  · rw [show "&gt;".toList = ['&', 'g', 't', ';'] from rfl] at h3
    simp at h3
    rcases h3 with rfl | rfl | rfl | rfl <;> decide
  rcases mem_replaceChar '<' _ _ h3 with h4 | ⟨h4, hne2⟩
  · rw [show "&lt;".toList = ['&', 'l', 't', ';'] from rfl] at h4
    simp at h4
    rcases h4 with rfl | rfl | rfl | rfl <;> decide
  rcases mem_replaceChar '&' _ _ h4 with h5 | ⟨h5, hne1⟩
  · rw [show "&amp;".toList = ['&', 'a', 'm', 'p', ';'] from rfl] at h5
    simp at h5
    rcases h5 with rfl | rfl | rfl | rfl | rfl <;> decide
  exact ⟨hne2, hne3, hne4, hne5⟩

/-- C1, counterexample: on the body text a<b with an empty EntitySet the
rewriter emits the text verbatim, so its output contains a literal,
unescaped opening angle bracket that is not part of any injected markup
(the entity lists are empty). -/
theorem c1_counterexample :
    formatTweetText (plainTweet "a<b" [] []) = "a<b".toList ∧
    '<' ∈ formatTweetText (plainTweet "a<b" [] []) ∧
    (plainTweet "a<b" [] []).user_mentions = [] ∧
    (plainTweet "a<b" [] []).urls = [] ∧
    (plainTweet "a<b" [] []).hashtags = [] ∧
    (plainTweet "a<b" [] []).media = [] := by decide

/-- C1, amended: the rewriter does not escape literal body text: with no
entity spans the output is the body text verbatim apart from
newline-to-br conversion; only the strings passed through escapeHtml (the
link href and display text) are escaped, and escapeHtml output indeed
contains no literal angle brackets or quote characters. -/
theorem c1_escaping_amended :
    (∀ t : Tweet, t.user_mentions = [] → t.urls = [] → t.hashtags = [] →
      t.media = [] →
      formatTweetText t =
        replaceChar '\n' "<br>".toList (fullTextOf t).toList) ∧
    (∀ s : List Char, ∀ c ∈ escapeHtml s,
      c ≠ '<' ∧ c ≠ '>' ∧ c ≠ quoteChar ∧ c ≠ aposChar) := by
  constructor
  · intro t h1 h2 h3 h4
    simp [formatTweetText, mergedRepls, h1, h2, h3, h4, stableSort]
  · exact escapeHtml_mem

theorem c1_escaping_amended_witness :
    formatTweetText (plainTweet "x\ny" [] []) =
      replaceChar '\n' "<br>".toList
        (fullTextOf (plainTweet "x\ny" [] [])).toList ∧
    ('&' ≠ '<' ∧ '&' ≠ '>' ∧ '&' ≠ quoteChar ∧ '&' ≠ aposChar) :=
  ⟨c1_escaping_amended.1 (plainTweet "x\ny" [] []) rfl rfl rfl rfl,
   c1_escaping_amended.2 "a&".toList '&' (by decide)⟩

/-- C2, counterexample: a reversed media span (start 3, end 1) on the body
abcd is not a no-op substitution: the output is abcbcd, duplicating the
characters bc. -/
theorem c2_counterexample :
    formatTweetText
        (plainTweet "abcd" [] [{ indices := (some 3, some 1) }]) =
      "abcbcd".toList ∧
    "abcbcd".toList ≠ "abcd".toList := by decide

/-- C2, amended: the splice never raises an error; a span with NaN indices
prepends its fragment leaving the whole text intact; a span entirely past
the end of the text appends its fragment leaving the text intact; and a
reversed in-bounds span splices take(start) ++ fragment ++ drop(end),
which loses no character of the original text but duplicates the segment
between end and start instead of acting as a no-op. -/
theorem c2_bad_spans_amended (text rep : List Char) (s e : Nat) :
    (applyRepl text { start := none, stop := none, replacement := rep } =
      rep ++ text) ∧
    (text.length ≤ s → text.length ≤ e →
      applyRepl text ⟨some (s : Int), some (e : Int), rep⟩ = text ++ rep) ∧
    (e ≤ s → s ≤ text.length →
      applyRepl text ⟨some (s : Int), some (e : Int), rep⟩ =
        text.take s ++ rep ++ text.drop e ∧
      List.Sublist text (text.take s ++ rep ++ text.drop e)) := by
  refine ⟨?_, ?_, ?_⟩
  · simp [applyRepl, jsSliceIdx]
  · intro hs he
    have hsi : jsSliceIdx text.length (some (s : Int)) = text.length := by
      simp [jsSliceIdx, Int.toNat_natCast, Nat.min_eq_right hs]
    have hei : jsSliceIdx text.length (some (e : Int)) = text.length := by
      simp [jsSliceIdx, Int.toNat_natCast, Nat.min_eq_right he]
    simp [applyRepl, hsi, hei, List.take_of_length_le (le_refl _),
      List.drop_eq_nil_of_le (le_refl _)]
  · intro hes hsl
    have hsi : jsSliceIdx text.length (some (s : Int)) = s := by
      simp [jsSliceIdx, Int.toNat_natCast, Nat.min_eq_left hsl]
    have hei : jsSliceIdx text.length (some (e : Int)) = e := by
      simp [jsSliceIdx, Int.toNat_natCast, Nat.min_eq_left (hes.trans hsl)]
    refine ⟨by simp [applyRepl, hsi, hei], ?_⟩
    have he2 : (text.take s).take e = text.take e := by
      rw [List.take_take, Nat.min_eq_left hes]
    have h1 : List.Sublist (text.take e) (text.take s) :=
      he2 ▸ List.take_sublist e (text.take s)
    have h2 : List.Sublist (text.take e) (text.take s ++ rep) :=
      h1.trans (List.sublist_append_left _ _)
    have h3 : List.Sublist (text.take e ++ text.drop e)
        ((text.take s ++ rep) ++ text.drop e) :=
      h2.append (List.Sublist.refl _)
    rw [List.take_append_drop] at h3
    exact h3

theorem c2_bad_spans_amended_witness :
    applyRepl "abcd".toList
        { start := some 3, stop := some 1, replacement := [] } =
      "abcd".toList.take 3 ++ [] ++ "abcd".toList.drop 1 ∧
    List.Sublist "abcd".toList
      ("abcd".toList.take 3 ++ [] ++ "abcd".toList.drop 1) :=
  (c2_bad_spans_amended "abcd".toList [] 3 1).2.2 (by decide) (by decide)

/-- The body hi PIC with one media span covering PIC, the C3 test item. -/
def tweetPicSpan : Tweet :=
  plainTweet "hi PIC" [] [{ indices := (some 2, some 6) }]

/-- C3, counterexample: for the body hi PIC with one media span over PIC,
the search-index text is the raw body lowercased (hi pic), while stripping
markup from the rewritten text and lowercasing would give hi, so the index
text is not derived from the rewriter output. -/
theorem c3_counterexample :
    (mkIndexEntry ⟨0, tweetPicSpan⟩).text = "hi pic".toList ∧
    (stripTags (formatTweetText tweetPicSpan)).map Char.toLower =
      "hi".toList ∧
    "hi pic".toList ≠ "hi".toList := by decide

/-- C3, amended: every entry of the embedded search index belongs to a
retained input record with a parseable timestamp, and its text field is
that record's RAW body text with tag-like sequences stripped and then
lowercased (not the rewritten HTML), alongside the record's id, parsed
timestamp and type tag. -/
theorem c3_search_text_amended (dparse : String → Option Int)
    (tweets : List Tweet) (e : IndexEntry)
    (he : e ∈ searchIndexOf dparse tweets) :
    ∃ t ∈ tweets, ∃ d : Int, dparse t.created_at = some d ∧
      e = { id := idOf t,
            text := (stripTags (fullTextOf t).toList).map Char.toLower,
            timestamp := d, type := getTweetType t } := by
  unfold searchIndexOf renderList at he
  rcases List.mem_map.mp he with ⟨dd, hdd, rfl⟩
  have hdd2 : dd ∈ tweetsWithDates dparse tweets :=
    (stableSort_perm datedLe _).mem_iff.mp hdd
  unfold tweetsWithDates at hdd2
  rcases List.mem_filterMap.mp hdd2 with ⟨t, ht, hft⟩
  rcases hp : dparse t.created_at with _ | d
  · rw [hp] at hft
    simp at hft
  · rw [hp] at hft
    simp at hft
    refine ⟨t, ht, d, hp, ?_⟩
    rw [← hft]
    rfl

theorem c3_search_text_amended_witness :
    ∃ t ∈ [plainTweet "A <b> c" [] []], ∃ d : Int,
      (fun s => if s = "" then some (5 : Int) else none) t.created_at =
        some d ∧
      mkIndexEntry { date := 5, tweet := plainTweet "A <b> c" [] [] } =
        { id := idOf t,
          text := (stripTags (fullTextOf t).toList).map Char.toLower,
          timestamp := d, type := getTweetType t } :=
  c3_search_text_amended (fun s => if s = "" then some (5 : Int) else none)
    [plainTweet "A <b> c" [] []]
    (mkIndexEntry { date := 5, tweet := plainTweet "A <b> c" [] [] })
    (by decide)

/-- C5, confirmed: the classifier checks in first-match-wins order: a body
text starting with RT @ or a present retweeted_status yields retweet
regardless of the reply fields; otherwise a truthy reply-target field
yields reply; otherwise post. -/
theorem c5_classifier (t : Tweet) :
    (("RT @".toList.isPrefixOf (fullTextOf t).toList ||
        t.retweeted_status) = true → getTweetType t = .retweet) ∧
    (("RT @".toList.isPrefixOf (fullTextOf t).toList ||
        t.retweeted_status) = false →
      (jsTruthyStr t.in_reply_to_status_id_str ||
        jsTruthyStr t.in_reply_to_user_id_str) = true →
      getTweetType t = .reply) ∧
    (("RT @".toList.isPrefixOf (fullTextOf t).toList ||
        t.retweeted_status) = false →
      (jsTruthyStr t.in_reply_to_status_id_str ||
        jsTruthyStr t.in_reply_to_user_id_str) = false →
      getTweetType t = .post) := by
  refine ⟨?_, ?_, ?_⟩
  · intro h1
    unfold getTweetType
    rw [if_pos h1]
  · intro h1 h2
    have h1' : ¬("RT @".toList.isPrefixOf (fullTextOf t).toList ||
        t.retweeted_status) = true := by rw [h1]; exact Bool.false_ne_true
    unfold getTweetType
    rw [if_neg h1', if_pos h2]
  · intro h1 h2
    have h1' : ¬("RT @".toList.isPrefixOf (fullTextOf t).toList ||
        t.retweeted_status) = true := by rw [h1]; exact Bool.false_ne_true
    have h2' : ¬(jsTruthyStr t.in_reply_to_status_id_str ||
        jsTruthyStr t.in_reply_to_user_id_str) = true := by
      rw [h2]; exact Bool.false_ne_true
    unfold getTweetType
    rw [if_neg h1', if_neg h2']

/-- A record that textually starts with RT @ and also carries a
reply-target identifier: the priority case singled out by the spec. -/
def tweetRTandReply : Tweet :=
  { full_text := some "RT @alice hi", user_mentions := [], urls := [],
    hashtags := [], media := [], retweeted_status := false,
    in_reply_to_status_id_str := some "99",
    in_reply_to_user_id_str := none, id_str := none, id := none,
    created_at := "", favorite_count := none, retweet_count := none }

/-- A plain reply record. -/
def tweetReplyOnly : Tweet :=
  { full_text := some "hello", user_mentions := [], urls := [],
    hashtags := [], media := [], retweeted_status := false,
    in_reply_to_status_id_str := some "99",
    in_reply_to_user_id_str := none, id_str := none, id := none,
    created_at := "", favorite_count := none, retweet_count := none }

theorem c5_classifier_witness :
    getTweetType tweetRTandReply = .retweet ∧
    getTweetType tweetReplyOnly = .reply ∧
    getTweetType (plainTweet "hello" [] []) = .post :=
  ⟨(c5_classifier tweetRTandReply).1 (by decide),
   (c5_classifier tweetReplyOnly).2.1 (by decide) (by decide),
   (c5_classifier (plainTweet "hello" [] [])).2.2 (by decide) (by decide)⟩

/-- C10, confirmed: when the embedded search index has no entry for the
item, the search criterion never hides it, whatever the query: visibility
is exactly the conjunction of the type, date and minimum-likes tests. -/
theorem c10_missing_entry (st : FilterState) (searchIndex : List IndexEntry)
    (el : TweetEl) (h : findEntry searchIndex el.id = none) :
    visibleTweet st searchIndex el = true ↔
      (el.type = st.activeType ∧
       st.fromDay.getD 0 ≤ el.timestamp ∧
       (∀ d : Int, st.toDay = some d → el.timestamp ≤ d + 86399000) ∧
       st.minLikes ≤ el.likes) := by
  unfold visibleTweet
  rw [h]
  rcases st.toDay with _ | d <;>
    simp [Bool.and_eq_true, decide_eq_true_eq, beq_iff_eq, and_assoc]

/-- A filter state with a non-empty query, used to exercise the
missing-index-entry case. -/
def stateQueryZzz : FilterState :=
  { query := "zzz".toList, fromDay := none, toDay := none, minLikes := 0,
    activeType := .post }

theorem c10_missing_entry_witness :
    visibleTweet stateQueryZzz []
      { timestamp := 7, id := "x1", type := .post, likes := 0 } = true :=
  (c10_missing_entry stateQueryZzz []
      { timestamp := 7, id := "x1", type := .post, likes := 0 }
      (by decide)).mpr
    ⟨rfl, by decide, fun d hd => Option.noConfusion hd, by decide⟩

/-- C6, confirmed: the render list is the date-descending stable sort of
the retained records: consecutive elements have non-increasing timestamps,
the list is a permutation of the retained records, and for every timestamp
value the records carrying it appear exactly as they do, in order, in the
retained input — equal-timestamp records keep their original relative
order. -/
theorem c6_render_order (dparse : String → Option Int) (tweets : List Tweet) :
    (renderList dparse tweets).Pairwise (fun a b => b.date ≤ a.date) ∧
    List.Perm (renderList dparse tweets) (tweetsWithDates dparse tweets) ∧
    ∀ ts : Int, (renderList dparse tweets).filter (fun d => d.date == ts) =
      (tweetsWithDates dparse tweets).filter (fun d => d.date == ts) := by
  refine ⟨?_, stableSort_perm _ _, ?_⟩
  · have hp := stableSort_pairwise datedLe (fun _ => True)
      (fun a b c _ h1 h2 => by
        simp only [datedLe, decide_eq_true_eq] at h1 h2 ⊢
        omega)
      (fun a b => by
        simp only [datedLe, decide_eq_true_eq]
        omega)
      (tweetsWithDates dparse tweets) (fun a _ => trivial)
    exact hp.imp fun h => by
      simpa only [datedLe, decide_eq_true_eq] using h
  · intro ts
    exact stableSort_filter datedLe (fun d => d.date == ts)
      (fun a b ha hb => by
        simp only [beq_iff_eq] at ha hb
        simp only [datedLe, ha, hb, decide_eq_true_eq, le_refl]) _

/-- C7, confirmed: a record whose timestamp string fails to parse is
silently invisible to the whole builder: inserting it anywhere in the
input changes neither the overall output (render list, embedded markup
data, search index, aggregates, date bounds) nor any individual pipeline
stage. -/
theorem c7_unparseable_dropped (dparse : String → Option Int)
    (l1 l2 : List Tweet) (r : Tweet) (h : dparse r.created_at = none) :
    generateHtml dparse (l1 ++ r :: l2) = generateHtml dparse (l1 ++ l2) ∧
    renderList dparse (l1 ++ r :: l2) = renderList dparse (l1 ++ l2) ∧
    searchIndexOf dparse (l1 ++ r :: l2) = searchIndexOf dparse (l1 ++ l2) := by
  have hw : tweetsWithDates dparse (l1 ++ r :: l2) =
      tweetsWithDates dparse (l1 ++ l2) := by
    unfold tweetsWithDates
    rw [List.filterMap_append, List.filterMap_append, List.filterMap_cons]
    rw [h]
    rfl
  have hr : renderList dparse (l1 ++ r :: l2) =
      renderList dparse (l1 ++ l2) := by
    unfold renderList
    rw [hw]
  refine ⟨?_, hr, ?_⟩
  · unfold generateHtml
    rw [hr]
  · unfold searchIndexOf
    rw [hr]

/-- An input record whose timestamp string does not parse under the sample
parser (which accepts only the empty string). -/
def tweetBadDate : Tweet :=
  { full_text := some "bad", user_mentions := [], urls := [], hashtags := [],
    media := [], retweeted_status := false, in_reply_to_status_id_str := none,
    in_reply_to_user_id_str := none, id_str := none, id := none,
    created_at := "not a date", favorite_count := none, retweet_count := none }

theorem c7_unparseable_dropped_witness :
    generateHtml (fun s => if s = "" then some (5 : Int) else none)
        ([plainTweet "keep" [] []] ++ tweetBadDate :: []) =
      generateHtml (fun s => if s = "" then some (5 : Int) else none)
        ([plainTweet "keep" [] []] ++ []) ∧
    renderList (fun s => if s = "" then some (5 : Int) else none)
        ([plainTweet "keep" [] []] ++ tweetBadDate :: []) =
      renderList (fun s => if s = "" then some (5 : Int) else none)
        ([plainTweet "keep" [] []] ++ []) ∧
    searchIndexOf (fun s => if s = "" then some (5 : Int) else none)
        ([plainTweet "keep" [] []] ++ tweetBadDate :: []) =
      searchIndexOf (fun s => if s = "" then some (5 : Int) else none)
        ([plainTweet "keep" [] []] ++ []) :=
  c7_unparseable_dropped (fun s => if s = "" then some (5 : Int) else none)
    [plainTweet "keep" [] []] [] tweetBadDate (by decide)

/-- C9, confirmed: when every input record has an unparseable timestamp
(in particular when the input is empty), the builder still produces the
minimal valid early-return document — whose entire body is the visible
empty-state message — with zero rendered items, and the aggregates of the
(empty) retained collection are all zero. -/
theorem c9_empty_output (dparse : String → Option Int) (tweets : List Tweet)
    (h : ∀ t ∈ tweets, dparse t.created_at = none) :
    generateHtml dparse tweets = .noTweets noTweetsHtml ∧
    renderList dparse tweets = [] ∧
    typeCountsOf (renderList dparse tweets) = ⟨0, 0, 0⟩ ∧
    maxLikesOf (renderList dparse tweets) = 0 ∧
    noTweetsHtml =
      "<html><body><p>No tweets found.</p></body></html>".toList := by
  have hw : tweetsWithDates dparse tweets = [] := by
    unfold tweetsWithDates
    refine List.filterMap_eq_nil_iff.mpr ?_
    intro t ht
    rw [h t ht]
    rfl
  have hr : renderList dparse tweets = [] := by
    unfold renderList
    rw [hw]
    rfl
  refine ⟨?_, hr, ?_, ?_, rfl⟩
  · unfold generateHtml
    rw [hr]
  · rw [hr]
    rfl
  · rw [hr]
    rfl

theorem c9_empty_output_witness :
    generateHtml (fun _ => none) [plainTweet "a" [] []] =
      .noTweets noTweetsHtml ∧
    renderList (fun _ => none) [plainTweet "a" [] []] = [] ∧
    typeCountsOf (renderList (fun _ => none) [plainTweet "a" [] []]) =
      ⟨0, 0, 0⟩ ∧
    maxLikesOf (renderList (fun _ => none) [plainTweet "a" [] []]) = 0 ∧
    noTweetsHtml =
      "<html><body><p>No tweets found.</p></body></html>".toList :=
  c9_empty_output (fun _ => none) [plainTweet "a" [] []]
    (fun t _ => rfl)

/-- Modelled from the claim wording of C4 (the combined-filter sentence of
the spec), for comparison with visibleTweet: type equals active tab, the
timestamp lies within the inclusive date range with a MISSING BOUND OPEN
ON THAT SIDE, likes meet the threshold, and every (tokenized, stemmed)
query token is in mutual containment with some token of the item's indexed
text (an absent index entry imposes no search constraint). -/
def visibleSpecClaim (st : FilterState) (searchIndex : List IndexEntry)
    (el : TweetEl) : Prop :=
  el.type = st.activeType ∧
  (match st.fromDay with
   | none => True
   | some f => f ≤ el.timestamp) ∧
  (match st.toDay with
   | none => True
   | some d => el.timestamp ≤ d + 86399000) ∧
  st.minLikes ≤ el.likes ∧
  (match findEntry searchIndex el.id with
   | some e => ∀ qt ∈ tokenize (jsTrim st.query), ∃ tt ∈ tokenize e.text,
       hasSub qt tt = true ∨ hasSub tt qt = true
   | none => True)

/-- The filter state with every control at its neutral default. -/
def stateDefault : FilterState :=
  { query := [], fromDay := none, toDay := none, minLikes := 0,
    activeType := .post }

/-- A rendered item with a pre-epoch (negative) timestamp. -/
def elPreEpoch : TweetEl :=
  { timestamp := -1, id := "1", type := .post, likes := 0 }

/-- The index entry of elPreEpoch. -/
def entryPreEpoch : IndexEntry :=
  { id := "1", text := [], timestamp := -1, type := .post }

/-- C4, counterexample: with no from-date chosen and every other criterion
satisfied, an item with a negative (pre-1970) timestamp should be visible
under the claim (missing bound = open side), but filterAndSort hides it,
because an empty from field becomes the bound 0. -/
theorem c4_counterexample :
    visibleSpecClaim stateDefault [entryPreEpoch] elPreEpoch ∧
    visibleTweet stateDefault [entryPreEpoch] elPreEpoch = false := by
  constructor
  · refine ⟨rfl, trivial, trivial, le_refl 0, ?_⟩
    intro qt hqt
    exact absurd hqt (List.not_mem_nil qt)
  · decide

/-- C4, amended: for an item whose identifier has an index entry, the item
is visible iff its type tag equals the active tab, its timestamp is at
least the from bound WITH A MISSING FROM BOUND DEFAULTING TO EPOCH 0 and
at most the end (second 23:59:59) of the to day when one is chosen, its
like count meets the threshold, and every (tokenized, stemmed) query token
is in mutual containment with some token of the indexed text; an empty
query (no tokens) matches every item. -/
theorem c4_visibility_amended (st : FilterState)
    (searchIndex : List IndexEntry) (el : TweetEl) (e : IndexEntry)
    (he : findEntry searchIndex el.id = some e) :
    visibleTweet st searchIndex el = true ↔
      (el.type = st.activeType ∧
       st.fromDay.getD 0 ≤ el.timestamp ∧
       (∀ d : Int, st.toDay = some d → el.timestamp ≤ d + 86399000) ∧
       st.minLikes ≤ el.likes ∧
       ∀ qt ∈ tokenize (jsTrim st.query), ∃ tt ∈ tokenize e.text,
         hasSub qt tt = true ∨ hasSub tt qt = true) := by
  unfold visibleTweet
  rw [he]
  by_cases hq : tokenize (jsTrim st.query) = []
  · rcases hd : st.toDay with _ | d <;>
      simp [hq, Bool.and_eq_true, decide_eq_true_eq, beq_iff_eq, and_assoc]
  · have hq' : 0 < (tokenize (jsTrim st.query)).length :=
      List.length_pos.mpr hq
    rcases hd : st.toDay with _ | d <;>
      simp [hq', Bool.and_eq_true, decide_eq_true_eq, beq_iff_eq, and_assoc,
        List.all_eq_true, List.any_eq_true, Bool.or_eq_true]

/-- A rendered item with a positive timestamp matching entryPreEpoch's id. -/
def elPostEpoch : TweetEl :=
  { timestamp := 7, id := "1", type := .post, likes := 0 }

theorem c4_visibility_amended_witness :
    visibleTweet stateDefault [entryPreEpoch] elPostEpoch = true :=
  (c4_visibility_amended stateDefault [entryPreEpoch] elPostEpoch
      entryPreEpoch (by decide)).mpr
    ⟨rfl, by decide, fun d hd => Option.noConfusion hd, by decide,
     fun qt hqt => absurd hqt (List.not_mem_nil qt)⟩

/-- Body abcdef with two non-overlapping in-bounds hashtag spans sharing
start index 3, the first of them empty, listed in one order. -/
def tweetSharedStart1 : Tweet :=
  plainTweet "abcdef"
    [{ indices := (some 3, some 3), text := "X" },
     { indices := (some 3, some 5), text := "Y" }] []

/-- The same body and spans as tweetSharedStart1, listed in the other
order. -/
def tweetSharedStart2 : Tweet :=
  plainTweet "abcdef"
    [{ indices := (some 3, some 5), text := "Y" },
     { indices := (some 3, some 3), text := "X" }] []

/-- C8, counterexample: two non-overlapping, in-bounds spans may share a
start index when one of them is empty; the stable descending sort then
keeps their input order, and the two orders splice differently, so the
entity lists of tweetSharedStart1 and tweetSharedStart2 — permutations of
one another over the same body — produce different outputs. -/
theorem c8_counterexample :
    List.Perm (mergedRepls tweetSharedStart1) (mergedRepls tweetSharedStart2) ∧
    (mergedRepls tweetSharedStart1).Pairwise (fun a b =>
      stopKey a ≤ startKey b ∨ stopKey b ≤ startKey a) ∧
    (∀ r ∈ mergedRepls tweetSharedStart1,
      0 ≤ startKey r ∧ startKey r ≤ stopKey r ∧
        stopKey r ≤ ((fullTextOf tweetSharedStart1).toList.length : Int)) ∧
    fullTextOf tweetSharedStart1 = fullTextOf tweetSharedStart2 ∧
    formatTweetText tweetSharedStart1 ≠ formatTweetText tweetSharedStart2 := by
  refine ⟨by decide, by decide, by decide, rfl, by decide⟩

/-- C8, amended: when all spans are non-overlapping, within bounds and
non-empty (start strictly below end — which forces pairwise distinct start
indices), rewriting is order-independent: any permutation of the merged
entity span list over the same body text produces the identical output,
because the descending-start sort of a list with distinct start keys is
uniquely determined. -/
theorem c8_order_independent_amended (t1 t2 : Tweet)
    (htext : fullTextOf t1 = fullTextOf t2)
    (hperm : List.Perm (mergedRepls t1) (mergedRepls t2))
    (hbounds : ∀ r ∈ mergedRepls t1, ∃ s : Int, r.start = some s ∧
      ∃ e : Int, r.stop = some e ∧ 0 ≤ s ∧ s < e ∧
        e ≤ ((fullTextOf t1).toList.length : Int))
    (hsep : (mergedRepls t1).Pairwise fun a b =>
      stopKey a ≤ startKey b ∨ stopKey b ≤ startKey a) :
    formatTweetText t1 = formatTweetText t2 := by
  have hsome : ∀ r ∈ mergedRepls t1, r.start.isSome = true := by
    intro r hr
    rcases hbounds r hr with ⟨s, hs, _⟩
    rw [hs]
    rfl
  have hne : (mergedRepls t1).Pairwise fun a b =>
      startKey a ≠ startKey b := by
    refine hsep.imp_of_mem ?_
    intro a b ha hb hab
    rcases hbounds a ha with ⟨sa, hsa, ea, hea, h0a, hlta, hlena⟩
    rcases hbounds b hb with ⟨sb, hsb, eb, heb, h0b, hltb, hlenb⟩
    simp only [startKey, stopKey, hsa, hsb, hea, heb, Option.getD_some] at hab ⊢
    rcases hab with h | h
    · omega
    · omega
  have hsorted := stableSort_eq_of_perm_repl _ _ hperm hsome hne
  unfold formatTweetText
  rw [htext, hsorted]

/-- Body abcd with hashtag spans at distinct starts 0 and 2, one order. -/
def tweetDistinct1 : Tweet :=
  plainTweet "abcd"
    [{ indices := (some 0, some 1), text := "X" },
     { indices := (some 2, some 3), text := "Y" }] []

/-- The same body and spans as tweetDistinct1, listed in the other order. -/
def tweetDistinct2 : Tweet :=
  plainTweet "abcd"
    [{ indices := (some 2, some 3), text := "Y" },
     { indices := (some 0, some 1), text := "X" }] []

theorem c8_order_independent_amended_witness :
    formatTweetText tweetDistinct1 = formatTweetText tweetDistinct2 := by
  refine c8_order_independent_amended tweetDistinct1 tweetDistinct2 rfl
    (by decide) ?_ (by decide)
  intro r hr
  have hl : mergedRepls tweetDistinct1 =
      [hashtagRepl { indices := (some 0, some 1), text := "X" },
       hashtagRepl { indices := (some 2, some 3), text := "Y" }] := rfl
  rw [hl] at hr
  rcases List.mem_cons.mp hr with rfl | hr2
  · exact ⟨0, rfl, 1, rfl, by decide, by decide, by decide⟩
  · rcases List.mem_cons.mp hr2 with rfl | hr3
    · exact ⟨2, rfl, 3, rfl, by decide, by decide, by decide⟩
    · exact absurd hr3 (List.not_mem_nil r)
